import Mathlib

/-!
Shallow embedding of the FaceRecognitionOffice front-end scripts
(`common.js`, `users.js`, `register.js`, `attendance.js`) and proofs of the
specification claims about them.  JavaScript values are modelled by `JSVal`,
HTTP responses by `Response`, and each event handler by a pure function from
its inputs (form state, fetch outcomes) to its observable effects (DOM state,
toasts, whether a network call was made).
-/

namespace FaceRec

/-- Model of a JavaScript value as it appears in this code base:
null and undefined (merged, both are falsy and have no properties), booleans,
numbers (the code only ever inspects them for truthiness), strings, arrays and
plain objects. -/
inductive JSVal : Type where
  | jnull : JSVal
  | jbool (b : Bool) : JSVal
  | jnum (n : Int) : JSVal
  | jstr (s : String) : JSVal
  | jarr (elems : List JSVal) : JSVal
  | jobj (fields : List (String × JSVal)) : JSVal

/-- JavaScript truthiness of a value. -/
def jsTruthy : JSVal → Bool
  | .jnull => false
  | .jbool b => b
  | .jnum n => n != 0
  | .jstr s => s != ""
  | .jarr _ => true
  | .jobj _ => true

/-- Property access v[k]: a lookup on a plain object, undefined (modelled
as jnull) on every other value. -/
def jsGet (v : JSVal) (k : String) : JSVal :=
  match v with
  | .jobj fields => (fields.lookup k).getD .jnull
  | _ => .jnull

/-- Strict equality of a value against a string literal. -/
def isStrEq (v : JSVal) (s : String) : Bool :=
  match v with
  | .jstr t => t == s
  | _ => false

/-- Test Array.isArray(v). -/
def isArray : JSVal → Bool
  | .jarr _ => true
  | _ => false

/-- Substring containment hay.includes(sub) on strings. -/
def strIncludes (hay sub : String) : Bool :=
  decide (sub.toList <:+: hay.toList)

/-- Lowercasing s.toLowerCase(), modelled character by character. -/
def jsToLower (s : String) : String := s.toLower

/-- The whitespace class used by `String.prototype.trim`, modelled by
`Char.isWhitespace`. -/
def jsWhitespace (c : Char) : Bool := c.isWhitespace

/-- Trimming s.trim(): drop leading and trailing whitespace. -/
def jsTrim (s : String) : String :=
  ⟨((s.toList.dropWhile jsWhitespace).reverse.dropWhile jsWhitespace).reverse⟩

/-- String coercion String(v) as used for toast messages.
Primitive values are exact; the composite cases (never produced by the
backend paths these handlers read `message` from) are approximated. -/
def jsToStr : JSVal → String
  | .jnull => "null"
  | .jbool b => cond b "true" "false"
  | .jnum n => toString n
  | .jstr s => s
  | .jarr _ => ""
  | .jobj _ => "[object Object]"

/-- Escape a string for JSON output (quote and backslash; the characters that
occur in the data of this application). -/
def jsonQuote (s : String) : String :=
  ⟨s.toList.foldr
    (fun c acc =>
      (if c = Char.ofNat 34 then [Char.ofNat 92, Char.ofNat 34]
       else if c = Char.ofNat 92 then [Char.ofNat 92, Char.ofNat 92]
       else [c]) ++ acc)
    []⟩

mutual

/-- Rendering of JSON.stringify(v, null, 2) at indentation ind. -/
def jsonStringifyVal (ind : String) : JSVal → String
  | .jnull => "null"
  | .jbool b => cond b "true" "false"
  | .jnum n => toString n
  | .jstr s => "\x22" ++ jsonQuote s ++ "\x22"
  | .jarr [] => "[]"
  | .jarr (x :: xs) =>
      "[\n" ++ jsonItems (ind ++ "  ") (x :: xs) ++ "\n" ++ ind ++ "]"
  | .jobj [] => "\x7b\x7d"
  | .jobj (f :: fs) =>
      "\x7b\n" ++ jsonFields (ind ++ "  ") (f :: fs) ++ "\n" ++ ind ++ "\x7d"

/-- Array elements of `JSON.stringify`, one per line, comma separated. -/
def jsonItems (ind : String) : List JSVal → String
  | [] => ""
  | [x] => ind ++ jsonStringifyVal ind x
  | x :: x2 :: xs =>
      ind ++ jsonStringifyVal ind x ++ ",\n" ++ jsonItems ind (x2 :: xs)

/-- Object fields of `JSON.stringify`, one per line, comma separated. -/
def jsonFields (ind : String) : List (String × JSVal) → String
  | [] => ""
  | [(k, v)] => ind ++ "\x22" ++ jsonQuote k ++ "\x22: " ++ jsonStringifyVal ind v
  | (k, v) :: f2 :: fs =>
      ind ++ "\x22" ++ jsonQuote k ++ "\x22: " ++ jsonStringifyVal ind v ++ ",\n" ++
        jsonFields ind (f2 :: fs)

end

/-- Top-level JSON.stringify(result, null, 2) as used by the dashboard. -/
def jsonStringify2 (v : JSVal) : String := jsonStringifyVal "" v

/-! ## common.js: apiGET / apiPOST -/

/-- The parts of a fetch Response that the helpers read.  The body reads
res.json() and res.text() are modelled as total: jsonBody is the decoded
JSON body and textBody the raw text body. -/
structure Response : Type where
  ok : Bool
  status : Nat
  statusText : String
  contentType : Option String
  jsonBody : JSVal
  textBody : String

/-- The generic error message: the status followed by the status text. -/
def statusMsg (r : Response) : String :=
  toString r.status ++ " " ++ r.statusText

/-- Whether the content-type header (defaulted to the empty string) mentions application/json. -/
def ctIsJson (r : Response) : Bool :=
  strIncludes (r.contentType.getD "") "application/json"

/-- Function apiGET from common.js: reject with the status message on a non-ok response,
otherwise decode as JSON when the content type says so, else return text. -/
def apiGET (r : Response) : Except String JSVal :=
  if !r.ok then .error (statusMsg r)
  else if ctIsJson r then .ok r.jsonBody
  else .ok (.jstr r.textBody)

/-- Function apiPOST from common.js: on a non-ok response the thrown message
is the body text when it is truthy (non-empty), the
generic status message otherwise; the success path matches `apiGET`. -/
def apiPOST (r : Response) : Except String JSVal :=
  if !r.ok then
    .error (if r.textBody == "" then statusMsg r else r.textBody)
  else if ctIsJson r then .ok r.jsonBody
  else .ok (.jstr r.textBody)

/-- A toast pushed by pushToast(msg, type). -/
structure Toast : Type where
  msg : String
  kind : String
deriving DecidableEq

/-! ## attendance.js: load() outcomes -/

/-- The table body rendered by load in attendance.js (the transient
loading row is not a final outcome). -/
inductive TBody : Type where
  | noData : TBody
  | noRecords : TBody
  | rows (rs : List JSVal) : TBody
  | errorRow (msg : String) : TBody

/-- The observable result of one `load()`: the final table body and the
toasts pushed. -/
structure AttLoad : Type where
  body : TBody
  toasts : List Toast

/-- Function load from attendance.js, as a function of the apiGET outcome:
a non-array response gives the `No data` row, an empty array the
`No records` row (neither with a toast), a populated array the data rows,
and a thrown error gives an error row plus an error toast. -/
def attendanceLoad (resp : Except String JSVal) : AttLoad :=
  match resp with
  | .ok data =>
    if !isArray data then ⟨.noData, []⟩
    else if (match data with | .jarr xs => xs | _ => []).length = 0 then ⟨.noRecords, []⟩
    else ⟨.rows (match data with | .jarr xs => xs | _ => []), []⟩
  | .error e => ⟨.errorRow e, [⟨"Failed to load attendance: " ++ e, "error"⟩]⟩

/-! ## register.js: the register click handler -/

/-- State of the register form: the four text inputs, the selected image file
(if any, identified by name) and whether the preview is shown. -/
structure RegisterForm : Type where
  name : String
  email : String
  proxy : String
  salary : String
  image : Option String
  previewShown : Bool
deriving DecidableEq

/-- The form state after a successful registration: every field cleared,
no file, preview hidden. -/
def clearedForm : RegisterForm := ⟨"", "", "", "", none, false⟩

/-- Observable result of one click of the register button: the form state
afterwards, the toasts pushed, and whether a POST to `/register` was made. -/
structure RegResult : Type where
  form : RegisterForm
  toasts : List Toast
  posted : Bool
deriving DecidableEq

/-- The register button click handler, as a function of the form state and
of the outcome of the POST to the register endpoint (unused when
validation fails).
Translated line by line: trimmed-name check first, then the file check,
then the POST; fields are cleared only when the status field of the
response is strictly equal to the string success. -/
def registerClick (f : RegisterForm) (post : Except String JSVal) : RegResult :=
  let nm := jsTrim f.name
  if nm == "" then ⟨f, [⟨"Name is required", "error"⟩], false⟩
  else
    match f.image with
    | none => ⟨f, [⟨"Upload a face image", "error"⟩], false⟩
    | some _ =>
      match post with
      | .ok data =>
        if jsTruthy data && isStrEq (jsGet data "status") "success" then
          ⟨clearedForm, [⟨"Registered successfully", "info"⟩], true⟩
        else
          let msg := if jsTruthy data && jsTruthy (jsGet data "message")
                     then jsToStr (jsGet data "message")
                     else "Unknown server response"
          ⟨f, [⟨"Registration error: " ++ msg, "error"⟩], true⟩
      | .error e => ⟨f, [⟨"Register failed: " ++ e, "error"⟩], true⟩

/-! ## register.js: the dashboard mark-attendance click handler -/

/-- Observable result of one click of the mark button: the final text of the
result element, the toasts pushed, and whether the GET fallback ran. -/
structure MarkResult : Type where
  preText : String
  toasts : List Toast
  getAttempted : Bool

/-- The mark-attendance click handler from initDashboard, as a function of
the POST outcome and of the fallback GET outcome (the latter is only
consulted when the POST throws). -/
def markClick (post get : Except String JSVal) : MarkResult :=
  match post with
  | .ok r => ⟨jsonStringify2 r, [⟨"Attendance processed", "info"⟩], false⟩
  | .error _ =>
    match get with
    | .ok r => ⟨jsonStringify2 r, [⟨"Attendance processed", "info"⟩], true⟩
    | .error e => ⟨e, [⟨"Attendance failed: " ++ e, "error"⟩], true⟩

/-! ## users.js: filter, sort, pagination -/

/-- A user record from the users endpoint as users.js reads it.  Field
values are modelled as strings (user_id is read through a String coercion
in the filter); email, proxy and salary may be absent. -/
structure User : Type where
  user_id : String
  name : String
  email : Option String
  proxy : Option String
  salary : Option String
deriving DecidableEq

/-- The search blob: the concatenation of user_id (via String coercion),
name, email and proxy, the last two defaulted to the empty string. -/
def searchBlob (u : User) : String :=
  u.user_id ++ u.name ++ (u.email.getD "") ++ (u.proxy.getD "")

/-- The filter predicate of render: keep every record when the lowercased
query is empty, otherwise test substring containment against the lowercased
search blob. -/
def filterKeep (qv : String) (u : User) : Bool :=
  let s := jsToLower qv
  if s = "" then true
  else strIncludes (jsToLower (searchBlob u)) s

/-- Constant perPage in users.js. -/
def perPage : Nat := 12

/-- Ceiling division Math.ceil(a / b) for natural a, positive natural b. -/
def jsCeilDiv (a b : Nat) : Nat := (a + (b - 1)) / b

/-- Page count Math.max(1, Math.ceil(filtered.length / perPage)). -/
def pagesOf (count : Nat) : Nat := max 1 (jsCeilDiv count perPage)

/-- The clamp page = Math.min(pages, Math.max(1, page)) performed by
render; the prior page is an arbitrary integer. -/
def renderPage (count : Nat) (page : Int) : Int :=
  min (pagesOf count : Int) (max 1 page)

/-- The prev button handler: page becomes Math.max(1, page-1). -/
def prevClick (page : Int) : Int := max 1 (page - 1)

/-- The next button handler: page becomes page + 1. -/
def nextClick (page : Int) : Int := page + 1

/-- The two sortable columns (only the ID and Name headers carry
data-key). -/
inductive SortKey : Type where
  | userId : SortKey
  | name : SortKey
deriving DecidableEq

/-- Sort direction. -/
inductive SortDir : Type where
  | asc : SortDir
  | desc : SortDir
deriving DecidableEq

/-- Direction toggling: asc becomes desc and back. -/
def toggle : SortDir → SortDir
  | .asc => .desc
  | .desc => .asc

/-- The header click handler: toggle the direction on the active column,
otherwise switch to the clicked column ascending. -/
def headerClick (sk : SortKey) (sd : SortDir) (k : SortKey) : SortKey × SortDir :=
  if sk = k then (sk, toggle sd) else (k, .asc)

/-- Key access u[k] for the sortable keys. -/
def keyOf (u : User) : SortKey → String
  | .userId => u.user_id
  | .name => u.name

/-- Direction multiplier: 1 when ascending, -1 when descending. -/
def dirMul : SortDir → Int
  | .asc => 1
  | .desc => -1

/-- The comparator cmp(a, b, k) of users.js (closing over the direction). -/
def cmp (sd : SortDir) (k : SortKey) (a b : User) : Int :=
  let d := dirMul sd
  if keyOf a k < keyOf b k then -1 * d
  else if keyOf a k > keyOf b k then 1 * d
  else 0

/-- The non-positivity test on the comparator that drives the (stable)
Array.prototype.sort. -/
def jsSortLE (sd : SortDir) (k : SortKey) (a b : User) : Bool :=
  decide (cmp sd k a b ≤ 0)

/-- Stable sorting of the filtered list: Array.prototype.sort is required
to be stable by the ECMAScript specification, so it is modelled by a stable
merge sort on the non-positivity test of the comparator. -/
def sortUsers (sd : SortDir) (k : SortKey) (l : List User) : List User :=
  l.mergeSort (jsSortLE sd k)

/-! ## Button disabling around in-flight requests -/

/-- The events of a click handler that matter for duplicate-click safety:
writes to the disabled flag and the start and end of an awaited request. -/
inductive UIEvent : Type where
  | setDisabled (b : Bool) : UIEvent
  | reqStart : UIEvent
  | reqEnd : UIEvent
deriving DecidableEq

/-- Observable state of the button: whether it is disabled and whether a
request of its handler is in flight. -/
structure BtnState : Type where
  disabled : Bool
  inFlight : Bool
deriving DecidableEq

/-- Effect of one event on the button state. -/
def stepUI (s : BtnState) : UIEvent → BtnState
  | .setDisabled b => ⟨b, s.inFlight⟩
  | .reqStart => ⟨s.disabled, true⟩
  | .reqEnd => ⟨s.disabled, false⟩

/-- The idle initial state: enabled, nothing in flight. -/
def initBtn : BtnState := ⟨false, false⟩

/-- All states the button passes through while the handler runs. -/
def uiStates (evs : List UIEvent) : List BtnState :=
  List.scanl stepUI initBtn evs

/-- The handler never leaves its button enabled while its request is in
flight. -/
def buttonSafeB (evs : List UIEvent) : Bool :=
  (uiStates evs).all (fun s => !s.inFlight || s.disabled)

/-- Event trace of the register submit handler once validation has passed:
the button is disabled before the awaited POST and re-enabled at the end
(on both the success and the failure branch). -/
def registerNetEvents : List UIEvent :=
  [.setDisabled true, .reqStart, .reqEnd, .setDisabled false]

/-- Event trace of the mark-attendance handler: disable, awaited POST, the
awaited GET fallback when the POST threw, re-enable at the end. -/
def markEvents (postFails : Bool) : List UIEvent :=
  if postFails then
    [.setDisabled true, .reqStart, .reqEnd, .reqStart, .reqEnd, .setDisabled false]
  else
    [.setDisabled true, .reqStart, .reqEnd, .setDisabled false]

/-- Event trace of the attendance load handler: it awaits its GET without
ever writing the disabled flag of the apply button. -/
def applyEvents : List UIEvent :=
  [.reqStart, .reqEnd]

/-! ## Helper lemmas -/

theorem jsSortLE_asc_iff (k : SortKey) (a b : User) :
    jsSortLE SortDir.asc k a b = true ↔ keyOf a k ≤ keyOf b k := by
  unfold jsSortLE cmp dirMul
  simp only [decide_eq_true_eq]
  rcases lt_trichotomy (keyOf a k) (keyOf b k) with h | h | h
  · simp [h, le_of_lt h]
  · simp [h, lt_irrefl]
  · simp [h, not_lt_of_gt h, not_le_of_gt h]

theorem jsSortLE_desc_iff (k : SortKey) (a b : User) :
    jsSortLE SortDir.desc k a b = true ↔ keyOf b k ≤ keyOf a k := by
  unfold jsSortLE cmp dirMul
  simp only [decide_eq_true_eq]
  rcases lt_trichotomy (keyOf a k) (keyOf b k) with h | h | h
  · simp [h, not_lt_of_gt h, not_le_of_gt h]
  · rw [h]; simp
  · simp [h, not_lt_of_gt h, le_of_lt h]

theorem jsSortLE_trans (sd : SortDir) (k : SortKey) (a b c : User)
    (h1 : jsSortLE sd k a b = true) (h2 : jsSortLE sd k b c = true) :
    jsSortLE sd k a c = true := by
  cases sd
  · rw [jsSortLE_asc_iff] at h1 h2 ⊢; exact le_trans h1 h2
  · rw [jsSortLE_desc_iff] at h1 h2 ⊢; exact le_trans h2 h1

theorem jsSortLE_total (sd : SortDir) (k : SortKey) (a b : User) :
    (jsSortLE sd k a b || jsSortLE sd k b a) = true := by
  cases sd
  · rw [Bool.or_eq_true, jsSortLE_asc_iff, jsSortLE_asc_iff]
    exact le_total (keyOf a k) (keyOf b k)
  · rw [Bool.or_eq_true, jsSortLE_desc_iff, jsSortLE_desc_iff]
    exact le_total (keyOf b k) (keyOf a k)

theorem jsSortLE_of_eq_keys (sd : SortDir) (k : SortKey) (a b : User)
    (h : keyOf a k = keyOf b k) : jsSortLE sd k a b = true := by
  cases sd
  · rw [jsSortLE_asc_iff]; exact le_of_eq h
  · rw [jsSortLE_desc_iff]; exact le_of_eq h.symm

theorem sortUsers_sorted (sd : SortDir) (k : SortKey) (l : List User) :
    (sortUsers sd k l).Pairwise (fun a b => jsSortLE sd k a b = true) :=
  List.sorted_mergeSort (fun a b c => jsSortLE_trans sd k a b c)
    (fun a b => jsSortLE_total sd k a b) l

theorem sortUsers_stable (sd : SortDir) (k : SortKey) (l : List User) (v : String) :
    (sortUsers sd k l).filter (fun u => keyOf u k == v) =
      l.filter (fun u => keyOf u k == v) := by
  set p : User → Bool := fun u => keyOf u k == v with hp
  have hperm : (sortUsers sd k l).Perm l := List.mergeSort_perm l _
  have hfperm : ((sortUsers sd k l).filter p).Perm (l.filter p) := hperm.filter p
  have hpw : (l.filter p).Pairwise (fun a b => jsSortLE sd k a b = true) := by
    apply List.pairwise_of_forall_mem_list
    intro a ha b hb
    have hav : keyOf a k = v := by
      have := (List.mem_filter.mp ha).2
      simpa [hp] using this
    have hbv : keyOf b k = v := by
      have := (List.mem_filter.mp hb).2
      simpa [hp] using this
    exact jsSortLE_of_eq_keys sd k a b (hav.trans hbv.symm)
  have hsub : (l.filter p).Sublist (sortUsers sd k l) :=
    List.sublist_mergeSort (fun a b c => jsSortLE_trans sd k a b c)
      (fun a b => jsSortLE_total sd k a b) hpw (List.filter_sublist l)
  have hsub2 : ((l.filter p).filter p).Sublist ((sortUsers sd k l).filter p) :=
    hsub.filter p
  rw [List.filter_filter,
    show (fun a => p a && p a) = p from funext (fun a => Bool.and_self _)] at hsub2
  exact (hsub2.eq_of_length (hfperm.length_eq.symm)).symm

theorem cmp_asc_neg_iff (k : SortKey) (a b : User) :
    cmp SortDir.asc k a b < 0 ↔ keyOf a k < keyOf b k := by
  unfold cmp dirMul
  rcases lt_trichotomy (keyOf a k) (keyOf b k) with h | h | h
  · simp [h]
  · rw [h]; simp
  · simp [h, not_lt_of_gt h]

theorem cmp_desc_neg_iff (k : SortKey) (a b : User) :
    cmp SortDir.desc k a b < 0 ↔ keyOf b k < keyOf a k := by
  unfold cmp dirMul
  rcases lt_trichotomy (keyOf a k) (keyOf b k) with h | h | h
  · simp [h, not_lt_of_gt h]
  · rw [h]; simp
  · simp [h, not_lt_of_gt h]

theorem cmp_asc_zero_iff (k : SortKey) (a b : User) :
    cmp SortDir.asc k a b = 0 ↔ keyOf a k = keyOf b k := by
  unfold cmp dirMul
  rcases lt_trichotomy (keyOf a k) (keyOf b k) with h | h | h
  · simp [h, ne_of_lt h]
  · rw [h]; simp
  · simp [h, not_lt_of_gt h, (ne_of_lt h).symm]

/-! ## Claim theorems -/

/-- C1: after every render (load, search input, sort click, prev or next
click all re-enter render), the page index is clamped: for every filtered
count and every prior page value, the rendered page lies between 1 and
max(1, ceil(filteredCount / 12)). -/
theorem render_page_clamped (count : Nat) (p : Int) :
    1 ≤ renderPage count p ∧
      renderPage count p ≤ ((max 1 (jsCeilDiv count perPage) : Nat) : Int) := by
  constructor
  · exact le_min (by exact_mod_cast le_max_left 1 (jsCeilDiv count perPage))
      (le_max_left 1 p)
  · exact min_le_left _ _

/-- Witness for C1 at a concrete input: 100 filtered records and prior page
999 clamp to a page within bounds. -/
theorem render_page_clamped_witness :
    1 ≤ renderPage 100 999 ∧ renderPage 100 999 ≤ ((max 1 (jsCeilDiv 100 perPage) : Nat) : Int) :=
  render_page_clamped 100 999

/-- C2: the users-view filter keeps a record exactly when the lowercased
search string is a substring of the lowercased concatenation of user_id,
name, email and proxy (the last two defaulted to the empty string); the
match is case-insensitive by construction and an empty search keeps every
record, because the empty string is a substring of everything. -/
theorem users_filter_keep_iff (qv : String) (u : User) :
    filterKeep qv u = true ↔
      (jsToLower qv).toList <:+: (jsToLower (searchBlob u)).toList := by
  unfold filterKeep
  by_cases h : jsToLower qv = ""
  · rw [if_pos h, h]
    constructor
    · intro _
      exact ⟨[], (jsToLower (searchBlob u)).toList, by simp⟩
    · intro _
      rfl
  · rw [if_neg h]
    simp [strIncludes]

/-- C3: clicking the active sort column toggles the direction and keeps the
key, clicking another column selects it ascending; the comparator orders by
the selected key in the selected direction; and the sort is stable: the
records holding any fixed key value keep their original relative order. -/
theorem users_sort_toggle_and_stable :
    (∀ sk sd, headerClick sk sd sk = (sk, toggle sd)) ∧
    (toggle SortDir.asc = SortDir.desc ∧ toggle SortDir.desc = SortDir.asc) ∧
    (∀ sk sd k, k ≠ sk → headerClick sk sd k = (k, SortDir.asc)) ∧
    (∀ k a b,
      (cmp SortDir.asc k a b < 0 ↔ keyOf a k < keyOf b k) ∧
      (cmp SortDir.desc k a b < 0 ↔ keyOf b k < keyOf a k) ∧
      (cmp SortDir.asc k a b = 0 ↔ keyOf a k = keyOf b k)) ∧
    (∀ sd k l, (sortUsers sd k l).Pairwise (fun a b => jsSortLE sd k a b = true)) ∧
    (∀ sd k l v, (sortUsers sd k l).filter (fun u => keyOf u k == v) =
        l.filter (fun u => keyOf u k == v)) := by
  refine ⟨?_, ⟨rfl, rfl⟩, ?_, ?_, sortUsers_sorted, sortUsers_stable⟩
  · intro sk sd
    unfold headerClick
    rw [if_pos rfl]
  · intro sk sd k h
    unfold headerClick
    rw [if_neg (fun hh => h hh.symm)]
  · intro k a b
    exact ⟨cmp_asc_neg_iff k a b, cmp_desc_neg_iff k a b, cmp_asc_zero_iff k a b⟩

/-- Witness for C3 at concrete inputs: clicking the Name header while the
ID column is active selects Name ascending, and clicking the Name header
while Name is active toggles to descending. -/
theorem users_sort_toggle_and_stable_witness :
    headerClick SortKey.userId SortDir.asc SortKey.name = (SortKey.name, SortDir.asc) ∧
    headerClick SortKey.name SortDir.asc SortKey.name = (SortKey.name, SortDir.desc) :=
  ⟨users_sort_toggle_and_stable.2.2.1 SortKey.userId SortDir.asc SortKey.name (by decide),
   users_sort_toggle_and_stable.1 SortKey.name SortDir.asc⟩

/-- A value whose status field is strictly the string success is an object
and therefore truthy. -/
theorem truthy_status (data : JSVal)
    (h : isStrEq (jsGet data "status") "success" = true) : jsTruthy data = true := by
  cases data with
  | jobj fields => simp [jsTruthy]
  | jnull => simp [jsGet, isStrEq] at h
  | jbool b => simp [jsGet, isStrEq] at h
  | jnum n => simp [jsGet, isStrEq] at h
  | jstr t => simp [jsGet, isStrEq] at h
  | jarr xs => simp [jsGet, isStrEq] at h

/-- The guard of the success branch of the register handler collapses to the
status test alone: the truthiness conjunct is redundant. -/
theorem registerSuccess_cond (data : JSVal) :
    (jsTruthy data && isStrEq (jsGet data "status") "success") =
      isStrEq (jsGet data "status") "success" := by
  cases hs : isStrEq (jsGet data "status") "success"
  · exact Bool.and_false _
  · simp [truthy_status data hs]

/-- C4: the attendance loader distinguishes exactly the non-loading
outcomes: a non-array response renders the no-data row with no toast, an
empty array renders the no-records row with no toast, a populated array
renders its rows, and a thrown fetch error renders an error row and pushes
an error toast. -/
theorem attendance_load_outcomes :
    (∀ v : JSVal, isArray v = false →
      attendanceLoad (Except.ok v) = ⟨TBody.noData, []⟩) ∧
    (attendanceLoad (Except.ok (JSVal.jarr [])) = ⟨TBody.noRecords, []⟩) ∧
    (∀ rs : List JSVal, rs ≠ [] →
      attendanceLoad (Except.ok (JSVal.jarr rs)) = ⟨TBody.rows rs, []⟩) ∧
    (∀ e, attendanceLoad (Except.error e) =
      ⟨TBody.errorRow e, [⟨"Failed to load attendance: " ++ e, "error"⟩]⟩) := by
  refine ⟨?_, rfl, ?_, fun e => rfl⟩
  · intro v hv
    simp [attendanceLoad, hv]
  · intro rs hrs
    cases rs with
    | nil => exact absurd rfl hrs
    | cons x xs => simp [attendanceLoad, isArray]

/-- Witness for C4 at concrete inputs: a null response gives the no-data
row without a toast, a one-element array gives its data row. -/
theorem attendance_load_outcomes_witness :
    attendanceLoad (Except.ok JSVal.jnull) = ⟨TBody.noData, []⟩ ∧
    attendanceLoad (Except.ok (JSVal.jarr [JSVal.jnull])) =
      ⟨TBody.rows [JSVal.jnull], []⟩ :=
  ⟨attendance_load_outcomes.1 JSVal.jnull rfl,
   attendance_load_outcomes.2.2.1 [JSVal.jnull] (by simp)⟩

/-- C5 counterexample: the attendance apply button is never disabled by its
handler, so during its in-flight request the button is enabled — the claim
that every request-triggering button is disabled for the whole duration of
its request is false for the apply button. -/
theorem apply_button_enabled_during_request_cex :
    buttonSafeB applyEvents = false := by decide

/-- C5 amended: the register submit and mark-attendance buttons are
disabled for the whole duration of their in-flight request (whether or not
the POST fails and the GET fallback runs), but the attendance apply button
is not disabled during its request, so duplicate apply requests remain
possible. -/
theorem buttons_disabled_during_requests :
    buttonSafeB registerNetEvents = true ∧
    (∀ b : Bool, buttonSafeB (markEvents b) = true) ∧
    buttonSafeB applyEvents = false := by
  refine ⟨by decide, fun b => ?_, by decide⟩
  cases b <;> decide

/-- C6: with a non-empty trimmed name and no selected image, clicking
register shows the upload-a-face-image error toast and makes no network
call; and whenever the name or file precondition fails, no POST to the
register endpoint occurs. -/
theorem register_requires_image (f : RegisterForm) (post : Except String JSVal) :
    (jsTrim f.name ≠ "" → f.image = none →
      registerClick f post = ⟨f, [⟨"Upload a face image", "error"⟩], false⟩) ∧
    ((jsTrim f.name = "" ∨ f.image = none) → (registerClick f post).posted = false) := by
  constructor
  · intro hn hi
    simp [registerClick, hn, hi]
  · intro h
    by_cases hn : jsTrim f.name = ""
    · simp [registerClick, hn]
    · rcases h with h | h
      · exact absurd h hn
      · simp [registerClick, hn, h]

/-- Witness for C6 at a concrete input: a filled name with no image file
produces exactly the upload toast and no POST. -/
theorem register_requires_image_witness :
    registerClick ⟨"Bob", "", "", "", none, false⟩ (Except.error "x") =
      ⟨⟨"Bob", "", "", "", none, false⟩, [⟨"Upload a face image", "error"⟩], false⟩ :=
  (register_requires_image _ _).1 (by decide) rfl

/-- C7: apiGET rejects with a message carrying the HTTP status and status
text exactly when the response is not ok, and otherwise returns the JSON
body when the content type mentions application/json and the raw text
otherwise; apiPOST mirrors this, preferring the (non-empty) error body
text in the thrown message when one is present. -/
theorem api_helpers_spec (r : Response) :
    ((∃ e, apiGET r = Except.error e) ↔ r.ok = false) ∧
    (r.ok = false → apiGET r = Except.error (statusMsg r)) ∧
    (r.ok = true →
      apiGET r = Except.ok (if ctIsJson r then r.jsonBody else JSVal.jstr r.textBody)) ∧
    ((∃ e, apiPOST r = Except.error e) ↔ r.ok = false) ∧
    (r.ok = false → r.textBody ≠ "" → apiPOST r = Except.error r.textBody) ∧
    (r.ok = false → r.textBody = "" → apiPOST r = Except.error (statusMsg r)) ∧
    (r.ok = true →
      apiPOST r = Except.ok (if ctIsJson r then r.jsonBody else JSVal.jstr r.textBody)) := by
  cases hok : r.ok with
  | false =>
    have hg : apiGET r = Except.error (statusMsg r) := by
      simp [apiGET, hok]
    have hp : apiPOST r =
        Except.error (if r.textBody == "" then statusMsg r else r.textBody) := by
      simp [apiPOST, hok]
    exact ⟨iff_of_true ⟨_, hg⟩ rfl, fun _ => hg, fun h => by simp at h,
      iff_of_true ⟨_, hp⟩ rfl, fun _ ht => by rw [hp]; simp [ht],
      fun _ ht => by rw [hp]; simp [ht], fun h => by simp at h⟩
  | true =>
    have hg : apiGET r =
        Except.ok (if ctIsJson r then r.jsonBody else JSVal.jstr r.textBody) := by
      by_cases hc : ctIsJson r <;> simp [apiGET, hok, hc]
    have hp : apiPOST r =
        Except.ok (if ctIsJson r then r.jsonBody else JSVal.jstr r.textBody) := by
      by_cases hc : ctIsJson r <;> simp [apiPOST, hok, hc]
    refine ⟨?_, fun h => by simp at h, fun _ => hg, ?_, fun h => by simp at h,
      fun h => by simp at h, fun _ => hp⟩
    · constructor
      · rintro ⟨e, he⟩
        rw [hg] at he
        simp at he
      · intro h
        simp at h
    · constructor
      · rintro ⟨e, he⟩
        rw [hp] at he
        simp at he
      · intro h
        simp at h

/-- Witness for C7 at concrete responses: a failed POST with body text
throws that text, and a successful GET without a JSON content type returns
the raw text. -/
theorem api_helpers_spec_witness :
    apiPOST ⟨false, 500, "Server Error", none, JSVal.jnull, "oops"⟩ =
      Except.error "oops" ∧
    apiGET ⟨true, 200, "OK", none, JSVal.jnull, "raw"⟩ =
      Except.ok (JSVal.jstr "raw") :=
  ⟨(api_helpers_spec _).2.2.2.2.1 rfl (by decide),
   (api_helpers_spec _).2.2.1 rfl⟩

/-- C8: once validation has passed, the form fields and preview are cleared
exactly when the POST succeeds with a response whose status field is the
string success; on any other outcome (non-success response or thrown
error) every field keeps its value and only an error toast is shown. -/
theorem register_clear_iff (f : RegisterForm) (post : Except String JSVal)
    (hn : jsTrim f.name ≠ "") (hi : f.image ≠ none) :
    (((registerClick f post).form = clearedForm) ↔
      (∃ data, post = Except.ok data ∧ isStrEq (jsGet data "status") "success" = true)) ∧
    (∀ data, post = Except.ok data → isStrEq (jsGet data "status") "success" = false →
      (registerClick f post).form = f ∧
      ∃ m, (registerClick f post).toasts = [⟨m, "error"⟩]) ∧
    (∀ e, post = Except.error e → (registerClick f post).form = f ∧
      (registerClick f post).toasts = [⟨"Register failed: " ++ e, "error"⟩]) := by
  obtain ⟨img, himg⟩ := Option.ne_none_iff_exists'.mp hi
  have hne : f ≠ clearedForm := by
    intro hfc
    apply hn
    rw [hfc]
    rfl
  cases post with
  | ok data =>
    cases hs : isStrEq (jsGet data "status") "success" with
    | true =>
      have hred : registerClick f (Except.ok data) =
          ⟨clearedForm, [⟨"Registered successfully", "info"⟩], true⟩ := by
        simp [registerClick, hn, himg, hs, truthy_status data hs]
      refine ⟨?_, ?_, ?_⟩
      · rw [hred]
        exact iff_of_true rfl ⟨data, rfl, hs⟩
      · intro d hd hsf
        rw [Except.ok.injEq] at hd
        subst hd
        rw [hs] at hsf
        simp at hsf
      · intro e he
        simp at he
    | false =>
      have hred : registerClick f (Except.ok data) =
          ⟨f, [⟨"Registration error: " ++
              (if jsTruthy data && jsTruthy (jsGet data "message")
               then jsToStr (jsGet data "message") else "Unknown server response"),
            "error"⟩], true⟩ := by
        simp [registerClick, hn, himg, registerSuccess_cond, hs]
      refine ⟨?_, ?_, ?_⟩
      · rw [hred]
        refine iff_of_false hne ?_
        rintro ⟨d, hd, hsd⟩
        rw [Except.ok.injEq] at hd
        subst hd
        rw [hs] at hsd
        simp at hsd
      · intro d hd hsf
        rw [Except.ok.injEq] at hd
        subst hd
        rw [hred]
        exact ⟨rfl, _, rfl⟩
      · intro e he
        simp at he
  | error e0 =>
    have hred : registerClick f (Except.error e0) =
        ⟨f, [⟨"Register failed: " ++ e0, "error"⟩], true⟩ := by
      simp [registerClick, hn, himg]
    refine ⟨?_, ?_, ?_⟩
    · rw [hred]
      refine iff_of_false hne ?_
      rintro ⟨d, hd, _⟩
      simp at hd
    · intro d hd
      simp at hd
    · intro e he
      rw [Except.error.injEq] at he
      subst he
      rw [hred]
      exact ⟨rfl, rfl⟩

/-- Witness for C8 at concrete inputs: a success response clears the form,
a thrown POST leaves it untouched. -/
theorem register_clear_iff_witness :
    (registerClick ⟨"Bob", "", "", "", some "face.png", true⟩
        (Except.ok (JSVal.jobj [("status", JSVal.jstr "success")]))).form = clearedForm ∧
    (registerClick ⟨"Bob", "", "", "", some "face.png", true⟩ (Except.error "x")).form =
      ⟨"Bob", "", "", "", some "face.png", true⟩ :=
  ⟨((register_clear_iff ⟨"Bob", "", "", "", some "face.png", true⟩ _
      (by decide) (by decide)).1).mpr
      ⟨JSVal.jobj [("status", JSVal.jstr "success")], rfl, rfl⟩,
   ((register_clear_iff ⟨"Bob", "", "", "", some "face.png", true⟩ _
      (by decide) (by decide)).2.2 "x" rfl).1⟩

/-- C9: the mark-attendance click tries the POST first; the GET fallback is
attempted exactly when the POST throws; whichever request succeeds has its
result displayed as JSON pretty-printed with two-space indentation; and
when both fail, the GET error message is displayed and an error toast is
pushed. -/
theorem mark_click_spec (post get : Except String JSVal) :
    (∀ r, post = Except.ok r →
      markClick post get = ⟨jsonStringify2 r, [⟨"Attendance processed", "info"⟩], false⟩) ∧
    (∀ e r, post = Except.error e → get = Except.ok r →
      markClick post get = ⟨jsonStringify2 r, [⟨"Attendance processed", "info"⟩], true⟩) ∧
    (∀ e1 e2, post = Except.error e1 → get = Except.error e2 →
      markClick post get = ⟨e2, [⟨"Attendance failed: " ++ e2, "error"⟩], true⟩) ∧
    ((markClick post get).getAttempted = true ↔ ∃ e, post = Except.error e) := by
  cases post with
  | ok r0 =>
    refine ⟨fun r hr => ?_, fun e r he _ => by simp at he,
      fun e1 e2 he _ => by simp at he, ?_⟩
    · rw [Except.ok.injEq] at hr
      subst hr
      rfl
    · simp [markClick]
  | error e0 =>
    cases get with
    | ok r0 =>
      refine ⟨fun r hr => by simp at hr, fun e r he hg => ?_,
        fun e1 e2 _ hg => by simp at hg, ?_⟩
      · rw [Except.ok.injEq] at hg
        subst hg
        rfl
      · simp [markClick]
    | error e0g =>
      refine ⟨fun r hr => by simp at hr, fun e r _ hg => by simp at hg,
        fun e1 e2 he hg => ?_, ?_⟩
      · rw [Except.error.injEq] at hg
        subst hg
        rfl
      · simp [markClick]

/-- Witness for C9 at a concrete input: a failed POST followed by a
successful GET displays the pretty-printed GET result and records that the
fallback ran. -/
theorem mark_click_spec_witness :
    markClick (Except.error "post down") (Except.ok (JSVal.jarr [])) =
      ⟨jsonStringify2 (JSVal.jarr []), [⟨"Attendance processed", "info"⟩], true⟩ :=
  (mark_click_spec _ _).2.1 "post down" (JSVal.jarr []) rfl rfl

/-- C10: the name precondition is evaluated on the trimmed value and before
the image check: when the name consists only of whitespace, the click shows
the name-is-required error toast and makes no network call, whatever the
image selection and the would-be POST outcome. -/
theorem register_name_whitespace (f : RegisterForm) (post : Except String JSVal)
    (h : ∀ c ∈ f.name.toList, jsWhitespace c = true) :
    registerClick f post = ⟨f, [⟨"Name is required", "error"⟩], false⟩ := by
  have ht : jsTrim f.name = "" := by
    unfold jsTrim
    rw [List.dropWhile_eq_nil_iff.mpr h]
    decide
  simp [registerClick, ht]

/-- Witness for C10 at a concrete input: a name of two spaces with no image
selected produces exactly the name-is-required toast and no POST. -/
theorem register_name_whitespace_witness :
    registerClick ⟨"  ", "a@b", "", "42", none, true⟩ (Except.error "x") =
      ⟨⟨"  ", "a@b", "", "42", none, true⟩, [⟨"Name is required", "error"⟩], false⟩ :=
  register_name_whitespace _ _ (by decide)

end FaceRec
